import Mathlib

/-!
Shallow embedding of the `sqla` repository (src/sqlalchemy.py, src/helpers.py)
and proofs about its query-condition composition, serialization helpers and
batch-update loop.

Modelling choices:
* an SQL value is `Option Int`: `none` models both SQL NULL and Python `None`
  (SQLAlchemy conflates them when building conditions: `column == None`
  compiles to `IS NULL`);
* a row is an association list from column name to value;
* a table is its ordered column-name list plus its stored rows;
* fallible Python code is embedded in `Except DbErr`; the exception kinds that
  can actually arise in the embedded fragment are listed in `DbErr`;
* SQL comparison with NULL is three-valued UNKNOWN, which a WHERE clause
  treats as false; `cmpLe`, `cmpLt` and the `evalCond` cases implement that;
* `ORDER BY` is a stable sort (`List.mergeSort`) by the key column, with the
  PostgreSQL defaults NULLS LAST for ascending and NULLS FIRST for descending.
-/

deriving instance DecidableEq for Except

namespace Sqla

/-- SQL/Python value: `none` is NULL / `None`, `some n` an integer value. -/
abbrev Value := Option Int

/-- Python truthiness of a value: `None` and `0` are falsy, all else truthy. -/
def Value.truthy : Value → Bool
  | none => false
  | some n => n != 0

/-- A row: association list from column name to value. -/
abbrev Row := List (String × Value)

/-- Column access on a row; a column absent from the row reads as NULL. -/
def lookupCol (r : Row) (c : String) : Value :=
  match r.find? (fun p => p.1 == c) with
  | some p => p.2
  | none => none

/-- A reflected table: ordered column names and stored rows. -/
structure Tbl where
  cols : List String
  rows : List Row

/-- The Python exceptions the embedded fragment can raise. -/
inductive DbErr where
  /-- `tbl.c[name]` / `getattr(tbl.c, name)` on a missing column. -/
  | noSuchColumn (c : String)
  /-- A local variable referenced before assignment (UnboundLocalError). -/
  | unboundLocal (v : String)
  /-- `dict(zip(column_names, None))` when `fetchone()` found no row. -/
  | typeError
  /-- A module-level name that is not defined (NameError). -/
  | nameError (v : String)
  /-- `row[key]` on a dict missing `key` (KeyError). -/
  | keyError (k : String)
  /-- Integer division by zero (`total_rows // batch_size`). -/
  | zeroDivisionError
deriving DecidableEq, Repr

/-- Condition AST: the SQLAlchemy column expressions `read_table` can emit. -/
inductive Cond where
  | between (col : String) (lo hi : Value)
  | ge (col : String) (v : Value)
  | le (col : String) (v : Value)
  | gt (col : String) (v : Value)
  | isNull (col : String)
  | isNotNull (col : String)
  | eqv (col : String) (v : Int)
  | inArr (col : String) (vs : List Value)
deriving DecidableEq, Repr

/-- SQL `<=`: UNKNOWN (hence false in a WHERE clause) if either side is NULL. -/
def cmpLe : Value → Value → Bool
  | some a, some b => decide (a ≤ b)
  | _, _ => false

/-- SQL `<`: UNKNOWN (hence false in a WHERE clause) if either side is NULL. -/
def cmpLt : Value → Value → Bool
  | some a, some b => decide (a < b)
  | _, _ => false

/-- Total order on values used by `ORDER BY col ASC`: NULLS LAST. -/
def cmpLeNulls : Value → Value → Bool
  | some a, some b => decide (a ≤ b)
  | some _, none => true
  | none, some _ => false
  | none, none => true

/-- WHERE-clause truth of a condition at a row (NULL comparisons are false). -/
def evalCond (r : Row) : Cond → Bool
  | .between c lo hi => cmpLe lo (lookupCol r c) && cmpLe (lookupCol r c) hi
  | .ge c v => cmpLe v (lookupCol r c)
  | .le c v => cmpLe (lookupCol r c) v
  | .gt c v => cmpLt v (lookupCol r c)
  | .isNull c => (lookupCol r c).isNone
  | .isNotNull c => (lookupCol r c).isSome
  | .eqv c v => lookupCol r c == some v
  | .inArr c vs =>
      match lookupCol r c with
      | none => false
      | some a => vs.contains (some a)

/-- SQLAlchemy `column == value`: compiles to `IS NULL` when the value is
`None`, to an equality otherwise. -/
def sqlEq (c : String) : Value → Cond
  | none => .isNull c
  | some v => .eqv c v

/-- Membership of a column name in the reflected table. -/
def Tbl.hasCol (t : Tbl) (c : String) : Bool := t.cols.contains c

/-- Embeds `tbl.c[name]` / `getattr(tbl.c, name)`: raises on a missing column. -/
def getCol (t : Tbl) (c : String) : Except DbErr String :=
  if t.hasCol c then .ok c else .error (.noSuchColumn c)

/-- Embeds the `columns_to_select` comprehension (src/sqlalchemy.py line 200):
each projection column is looked up on `tbl.c` and a missing one raises. -/
def checkCols (t : Tbl) : List String → Except DbErr Unit
  | [] => .ok ()
  | c :: cs =>
      match getCol t c with
      | .ok _ => checkCols t cs
      | .error e => .error e

/-- Embeds the between directive (src/sqlalchemy.py lines 205-213).  The
Python guard is `if between_col and between_arr and len(between_arr) == 2`,
so a `None` or empty-string column, a `None` or non-length-2 array skip the
directive.  Inside, `start_date`/`end_date` are tested for truthiness; when
neither is truthy no branch assigns `conditions_between` and line 213 raises
UnboundLocalError. -/
def betweenStep (t : Tbl) (between_col : Option String)
    (between_arr : Option (List Value)) : Except DbErr (List Cond) :=
  match between_col, between_arr with
  | some bc, some [s, e] =>
      if bc = "" then .ok []
      else if s.truthy && e.truthy then
        match getCol t bc with
        | .ok c => .ok [Cond.between c s e]
        | .error er => .error er
      else if s.truthy then
        match getCol t bc with
        | .ok c => .ok [Cond.ge c s]
        | .error er => .error er
      else if e.truthy then
        match getCol t bc with
        | .ok c => .ok [Cond.le c e]
        | .error er => .error er
      else .error (.unboundLocal "conditions_between")
  | _, _ => .ok []

/-- Embeds the after-cursor directive (src/sqlalchemy.py lines 214-221): the
bare `try/except` swallows any failure (in this fragment, the column lookup),
so the directive never raises; it contributes `col > after_val` when the
column exists and nothing otherwise. -/
def afterStep (t : Tbl) (after_last_col : Option String) (after_val : Value) :
    List Cond :=
  match after_last_col with
  | none => []
  | some c => if t.hasCol c then [Cond.gt c after_val] else []

/-- Embeds the null-columns directive (src/sqlalchemy.py lines 222-224): the
comprehension iterates over `columns` — the projection list — not over the
`null_cols` argument, whose content is ignored. -/
def nullStep (columns : List String) : Option (List String) → List Cond
  | none => []
  | some _ => columns.map Cond.isNull

/-- Embeds the non-null-columns directive (src/sqlalchemy.py lines 226-228):
again iterates over the projection list `columns`, not `non_null_cols`. -/
def nonNullStep (columns : List String) : Option (List String) → List Cond
  | none => []
  | some _ => columns.map Cond.isNotNull

/-- Embeds the equals directive (src/sqlalchemy.py lines 230-232).  Returns
the value of the Python local `conditions_equals` after this statement:
`none` when the branch did not run (the local stays unbound). -/
def equalsStep (t : Tbl) (equals_col : Option String) (equals_val : Value) :
    Except DbErr (Option (List Cond)) :=
  match equals_col, equals_val with
  | some c, some v =>
      match getCol t c with
      | .ok _ => .ok (some [sqlEq c (some v)])
      | .error e => .error e
  | _, _ => .ok none

/-- Embeds the loop over `equals_dct.items()` (src/sqlalchemy.py lines
234-235): each iteration looks the column up (raising on a missing one) and
reassigns `conditions_equals`, so only the last entry survives.  The second
argument is the incoming value of the local `conditions_equals`. -/
def dctLoop (t : Tbl) :
    List (String × Value) → Option (List Cond) → Except DbErr (Option (List Cond))
  | [], b => .ok b
  | (c, v) :: rest, _ =>
      match getCol t c with
      | .ok _ => dctLoop t rest (some [sqlEq c v])
      | .error e => .error e

/-- Embeds the equals-map directive (src/sqlalchemy.py lines 233-236): after
the loop, line 236 reads `conditions_equals`; if it was never assigned (empty
dict and no equals directive before) that raises UnboundLocalError. -/
def dctStep (t : Tbl) (equals_dct : Option (List (String × Value)))
    (binding : Option (List Cond)) : Except DbErr (List Cond) :=
  match equals_dct with
  | none => .ok []
  | some entries =>
      match dctLoop t entries binding with
      | .ok (some cs) => .ok cs
      | .ok none => .error (.unboundLocal "conditions_equals")
      | .error e => .error e

/-- Embeds the membership directive (src/sqlalchemy.py lines 237-239). -/
def inArrStep (t : Tbl) : Option (String × List Value) → Except DbErr (List Cond)
  | none => .ok []
  | some (c, vs) =>
      match getCol t c with
      | .ok _ => .ok [Cond.inArr c vs]
      | .error e => .error e

/-- Embeds the whole condition-collection block of `read_table`
(src/sqlalchemy.py lines 204-239), in statement order, threading the Python
local `conditions` as an accumulating list and `conditions_equals` between
the equals and equals-map branches. -/
def buildConditions (t : Tbl) (columns : List String)
    (after_last_col : Option String) (after_val : Value)
    (null_cols non_null_cols : Option (List String))
    (equals_col : Option String) (equals_val : Value)
    (equals_dct : Option (List (String × Value)))
    (col_in_arr : Option (String × List Value))
    (between_col : Option String) (between_arr : Option (List Value)) :
    Except DbErr (List Cond) :=
  match betweenStep t between_col between_arr with
  | .error e => .error e
  | .ok cb =>
      let conds := cb ++ afterStep t after_last_col after_val
          ++ nullStep columns null_cols ++ nonNullStep columns non_null_cols
      match equalsStep t equals_col equals_val with
      | .error e => .error e
      | .ok bindingEq =>
          let conds := conds ++ bindingEq.getD []
          match dctStep t equals_dct bindingEq with
          | .error e => .error e
          | .ok cd =>
              let conds := conds ++ cd
              match inArrStep t col_in_arr with
              | .error e => .error e
              | .ok ci => .ok (conds ++ ci)

/-- Row comparison used by `ORDER BY col`: ascending is NULLS LAST, and
descending is its flip (NULLS FIRST), the PostgreSQL defaults. -/
def keyLe (asc : Bool) (c : String) (r1 r2 : Row) : Bool :=
  if asc then cmpLeNulls (lookupCol r1 c) (lookupCol r2 c)
  else cmpLeNulls (lookupCol r2 c) (lookupCol r1 c)

/-- Execution of an `ORDER BY` clause: stable sort by the key column. -/
def sortRows (rows : List Row) (c : String) (asc : Bool) : List Row :=
  rows.mergeSort (keyLe asc c)

/-- Embeds `.order_by(...)` (src/sqlalchemy.py lines 242-243): looks the
ordering column up (raising on a missing one) and sorts when requested. -/
def orderRows (t : Tbl) (order_by_col : Option String) (asc : Bool)
    (rows : List Row) : Except DbErr (List Row) :=
  match order_by_col with
  | none => .ok rows
  | some oc =>
      if t.hasCol oc then .ok (sortRows rows oc asc)
      else .error (.noSuchColumn oc)

/-- Embeds `.limit(limit)` (src/sqlalchemy.py lines 244-245): applied only
when `limit` is not `None`. -/
def takeLimit : Option Nat → List Row → List Row
  | none, rs => rs
  | some n, rs => rs.take n

/-- The SELECT projection: each result row holds exactly the projection
columns, in the given order. -/
def project (columns : List String) (rs : List Row) : List Row :=
  rs.map (fun r => columns.map (fun c => (c, lookupCol r c)))

/-- The default of the `limit` parameter in `read_table`'s signature
(src/sqlalchemy.py line 176). -/
def default_limit : Option Nat := some 10000

/-- Embeds `read_table` (src/sqlalchemy.py lines 175-249).  Parameters appear
in the Python signature's order (minus the table name, replaced by the
reflected table itself).  `columns0` is the `columns` parameter before the
`columns if columns != None else [...]` defaulting on line 196. -/
def read_table (t : Tbl) (columns0 : Option (List String))
    (order_by_col : Option String) (order_by_asc : Bool)
    (after_last_col : Option String) (after_val : Value)
    (null_cols : Option (List String)) (non_null_cols : Option (List String))
    (equals_col : Option String) (equals_val : Value)
    (equals_dct : Option (List (String × Value)))
    (col_in_arr : Option (String × List Value))
    (between_col : Option String) (between_arr : Option (List Value))
    (limit : Option Nat) : Except DbErr (List Row) :=
  let columns := columns0.getD t.cols
  match checkCols t columns with
  | .error e => .error e
  | .ok _ =>
      match buildConditions t columns after_last_col after_val null_cols
          non_null_cols equals_col equals_val equals_dct col_in_arr
          between_col between_arr with
      | .error e => .error e
      | .ok conds =>
          let rows := t.rows.filter (fun r => conds.all (fun c => evalCond r c))
          match orderRows t order_by_col order_by_asc rows with
          | .error e => .error e
          | .ok sorted => .ok (project columns (takeLimit limit sorted))

/-- Embeds `get_last_row` (src/sqlalchemy.py lines 133-152): SELECT all
columns ORDER BY id DESC LIMIT 1, then `dict(zip(column_names, row))`.
The `col` and `ascending` parameters are never used.  `tbl.c.id` raises on a
table without an `id` column; on an empty table `fetchone()` returns `None`
and `zip(column_names, None)` raises TypeError. -/
def get_last_row (t : Tbl) (col : String) (ascending : Bool) : Except DbErr Row :=
  if t.hasCol "id" then
    match t.rows.mergeSort (keyLe false "id") with
    | [] => .error .typeError
    | r :: _ => .ok (t.cols.map (fun c => (c, lookupCol r c)))
  else .error (.noSuchColumn "id")

/-- Embeds `get_first_row_after` (src/sqlalchemy.py lines 154-173): its body
is identical to `get_last_row`'s, and the `col` and `value` parameters are
never used. -/
def get_first_row_after (t : Tbl) (col : String) (value : Value) : Except DbErr Row :=
  if t.hasCol "id" then
    match t.rows.mergeSort (keyLe false "id") with
    | [] => .error .typeError
    | r :: _ => .ok (t.cols.map (fun c => (c, lookupCol r c)))
  else .error (.noSuchColumn "id")

/-! Embedding of src/helpers.py. -/

/-- A Python value as seen by `json.dumps`: built-in serializable values
(modelled by integers and strings) and non-serializable objects, carried with
the string `str(...)` would produce for them. -/
inductive PyVal where
  | vint (n : Int)
  | vstr (s : String)
  | obj (d : String)
deriving DecidableEq, Repr

/-- Whether `json.dumps(value)` succeeds. -/
def PyVal.jsonable : PyVal → Bool
  | vint _ => true
  | vstr _ => true
  | obj _ => false

/-- Python `str(value)`. -/
def pyStr : PyVal → String
  | .vint n => toString n
  | .vstr s => s
  | .obj d => d

/-- Embeds `jsonify_dict` (src/helpers.py lines 29-37): each value that
`json.dumps` accepts is kept, each other value is replaced by `str(value)`;
keys and their order are preserved and the function never raises. -/
def jsonify_dict (d_in : List (String × PyVal)) : List (String × PyVal) :=
  d_in.map (fun kv => (kv.1, if kv.2.jsonable then kv.2 else PyVal.vstr (pyStr kv.2)))

/-- Embeds `jsonify_records` (src/helpers.py lines 39-47): applies the same
per-field rule to every record in the list (the in-place writes
`records_arr[i][key] = ...` amount to mapping the rule over each dict). -/
def jsonify_records (records_arr : List (List (String × PyVal))) :
    List (List (String × PyVal)) :=
  records_arr.map jsonify_dict

/-! Embedding of `batch_update_table` (src/sqlalchemy.py lines 270-304). -/

/-- Embeds Python `row[key]` on a dict: KeyError when the key is absent. -/
def dictGet (r : Row) (k : String) : Except DbErr Value :=
  match r.find? (fun p => p.1 == k) with
  | some p => .ok p.2
  | none => .error (.keyError k)

/-- Overwrites one column of a row. -/
def setCol (r : Row) (c : String) (v : Value) : Row :=
  r.map (fun p => if p.1 == c then (p.1, v) else p)

/-- The effect of `sql.update(tbl).where(tbl.c.id == idv).values(fee_price=fp,
fee_value=fv)` on the stored rows. -/
def applyUpdate (rows : List Row) (idv fp fv : Value) : List Row :=
  rows.map (fun r =>
    if evalCond r (sqlEq "id" idv) then
      setCol (setCol r "fee_price" fp) "fee_value" fv
    else r)

/-- Embeds the inner row loop (src/sqlalchemy.py lines 301-303): each row's
`col_merge`, `fee_price` and `fee_value` entries are read (KeyError on a
missing one) and one UPDATE is executed against the pending table state. -/
def execRows (col_merge : String) : List Row → List Row → Except DbErr (List Row)
  | [], tblRows => .ok tblRows
  | row :: rest, tblRows =>
      match dictGet row col_merge with
      | .error e => .error e
      | .ok idv =>
          match dictGet row "fee_price" with
          | .error e => .error e
          | .ok fp =>
              match dictGet row "fee_value" with
              | .error e => .error e
              | .ok fv => execRows col_merge rest (applyUpdate tblRows idv fp fv)

/-- Embeds `print(tab(...))` (src/sqlalchemy.py line 298): `tab` is defined
in src/helpers.py but src/sqlalchemy.py never imports it, so evaluating the
name `tab` raises NameError (before the f-string argument is evaluated). -/
def progressPrint : Except DbErr Unit := .error (.nameError "tab")

/-- Splits the input rows into consecutive chunks of size `bs`, as the
slices `arr_rows[offset : offset + min(batch_size, total_rows - offset)]`
over `range(0, total_rows, batch_size)` do (src/sqlalchemy.py lines 288-292). -/
def chunks (bs : Nat) (l : List Row) : List (List Row) :=
  if l = [] ∨ bs = 0 then [] else l.take bs :: chunks bs (l.drop bs)
termination_by l.length
decreasing_by
  rename_i h
  simp only [not_or] at h
  have h1 : l ≠ [] := h.1
  have h2 : bs ≠ 0 := h.2
  have h3 : 0 < l.length := List.length_pos.mpr h1
  simp only [List.length_drop]
  omega

/-- Embeds the batch loop (src/sqlalchemy.py lines 288-304).  The second
argument is the table state as of the last `conn.commit()`.  Each iteration
first runs the progress print — which raises NameError because `tab` is not
imported — and only then would execute the batch's UPDATEs and commit; an
exception exits the `engine.begin()` block, rolling back to the last commit. -/
def batchLoop (col_merge : String) :
    List (List Row) → List Row → Except DbErr Unit × List Row
  | [], committed => (.ok (), committed)
  | sub :: rest, committed =>
      match progressPrint with
      | .error e => (.error e, committed)
      | .ok _ =>
          match execRows col_merge sub committed with
          | .error e => (.error e, committed)
          | .ok updated => batchLoop col_merge rest updated

/-- Embeds `batch_update_table` (src/sqlalchemy.py lines 270-304): returns
the call's outcome together with the final committed table rows.  Before the
loop, `n_batches = total_rows // batch_size + 1` raises ZeroDivisionError
when `batch_size` is 0. -/
def batch_update_table (t : Tbl) (arr_rows : List Row) (col_merge : String)
    (batch_size : Nat) : Except DbErr Unit × List Row :=
  if batch_size = 0 then (.error .zeroDivisionError, t.rows)
  else batchLoop col_merge (chunks batch_size arr_rows) t.rows

/-! Helper lemmas shared by the claim theorems. -/

/-- Projection-column validation succeeds exactly when every projection
column exists in the table. -/
theorem checkCols_ok_iff (t : Tbl) (cs : List String) :
    checkCols t cs = .ok () ↔ ∀ c ∈ cs, t.hasCol c = true := by
  induction cs with
  | nil => simp [checkCols]
  | cons c cs ih =>
      simp only [checkCols, getCol]
      by_cases h : t.hasCol c = true
      · simp [h, ih]
      · simp [h]

/-- The default projection (all reflected columns) always validates. -/
theorem checkCols_self (t : Tbl) : checkCols t t.cols = .ok () := by
  rw [checkCols_ok_iff]
  intro c hc
  simpa [Tbl.hasCol] using hc

/-- Decomposition of a successful `read_table` call into the pipeline
filter-then-order-then-limit-then-project over the collected conditions. -/
theorem read_table_ok_decomp (t : Tbl) (columns0 : Option (List String))
    (obc : Option String) (oba : Bool) (alc : Option String) (av : Value)
    (nc nnc : Option (List String)) (ec : Option String) (ev : Value)
    (ed : Option (List (String × Value))) (cia : Option (String × List Value))
    (bc : Option String) (ba : Option (List Value)) (lim : Option Nat)
    (out : List Row)
    (h : read_table t columns0 obc oba alc av nc nnc ec ev ed cia bc ba lim = .ok out) :
    ∃ conds sorted,
      buildConditions t (columns0.getD t.cols) alc av nc nnc ec ev ed cia bc ba
        = .ok conds ∧
      orderRows t obc oba
        (t.rows.filter (fun r => conds.all (fun c => evalCond r c))) = .ok sorted ∧
      out = project (columns0.getD t.cols) (takeLimit lim sorted) := by
  simp only [read_table] at h
  split at h
  · exact absurd h (by simp)
  · split at h
    · exact absurd h (by simp)
    · rename_i conds hconds
      split at h
      · exact absurd h (by simp)
      · rename_i sorted hsorted
        exact ⟨conds, sorted, hconds, hsorted, (Except.ok.injEq _ _).mp h.symm⟩

/-- Membership in the limited output implies membership in the input list. -/
theorem mem_takeLimit {lim : Option Nat} {rs : List Row} {r : Row}
    (h : r ∈ takeLimit lim rs) : r ∈ rs := by
  cases lim with
  | none => exact h
  | some n => exact List.mem_of_mem_take h

/-- A successful ORDER BY step only permutes the rows. -/
theorem mem_orderRows {t : Tbl} {obc : Option String} {oba : Bool}
    {rows sorted : List Row} {r : Row}
    (h : orderRows t obc oba rows = .ok sorted) (hr : r ∈ sorted) : r ∈ rows := by
  cases obc with
  | none =>
      simp only [orderRows] at h
      cases h
      exact hr
  | some oc =>
      simp only [orderRows] at h
      split at h
      · cases h
        exact List.mem_mergeSort.mp hr
      · exact absurd h (by simp)

/-- Every row of a successful `read_table` output is the projection of a
stored row satisfying all the collected conditions. -/
theorem mem_read_table (t : Tbl) (columns0 : Option (List String))
    (obc : Option String) (oba : Bool) (alc : Option String) (av : Value)
    (nc nnc : Option (List String)) (ec : Option String) (ev : Value)
    (ed : Option (List (String × Value))) (cia : Option (String × List Value))
    (bc : Option String) (ba : Option (List Value)) (lim : Option Nat)
    (out : List Row) (row : Row)
    (h : read_table t columns0 obc oba alc av nc nnc ec ev ed cia bc ba lim = .ok out)
    (hrow : row ∈ out) :
    ∃ conds r,
      buildConditions t (columns0.getD t.cols) alc av nc nnc ec ev ed cia bc ba
        = .ok conds ∧
      r ∈ t.rows ∧ (∀ c ∈ conds, evalCond r c = true) ∧
      row = (columns0.getD t.cols).map (fun cn => (cn, lookupCol r cn)) := by
  obtain ⟨conds, sorted, h1, h2, h3⟩ :=
    read_table_ok_decomp t columns0 obc oba alc av nc nnc ec ev ed cia bc ba lim out h
  subst h3
  simp only [project, List.mem_map] at hrow
  obtain ⟨r, hrmem, hrdef⟩ := hrow
  have hr2 : r ∈ t.rows.filter (fun r => conds.all (fun c => evalCond r c)) :=
    mem_orderRows h2 (mem_takeLimit hrmem)
  rw [List.mem_filter] at hr2
  exact ⟨conds, r, h1, hr2.1, List.all_eq_true.mp hr2.2, hrdef.symm⟩

/-- A list-conjunction test is the decidable universal quantification. -/
theorem all_eq_decide (conds : List Cond) (r : Row) :
    conds.all (fun c => evalCond r c) = decide (∀ c ∈ conds, evalCond r c = true) := by
  by_cases hall : ∀ c ∈ conds, evalCond r c = true
  · rw [List.all_eq_true.mpr hall, decide_eq_true hall]
  · rw [decide_eq_false hall]
    by_contra hne
    rw [Bool.not_eq_false] at hne
    exact hall (List.all_eq_true.mp hne)

/-! Claim theorems. -/

/-- C1: for every `read_table` call, the supplied directives' predicates are
collected into one list and combined with logical AND only — a stored row
survives the WHERE clause exactly when every collected condition evaluates to
true on it — and the successful result is obtained by applying ordering (when
requested) to the filtered rows, then the limit (when requested), before
materialization (projection). -/
theorem C1_and_composition_then_order_then_limit (t : Tbl)
    (columns0 : Option (List String)) (obc : Option String) (oba : Bool)
    (alc : Option String) (av : Value) (nc nnc : Option (List String))
    (ec : Option String) (ev : Value) (ed : Option (List (String × Value)))
    (cia : Option (String × List Value)) (bc : Option String)
    (ba : Option (List Value)) (lim : Option Nat) (out : List Row)
    (h : read_table t columns0 obc oba alc av nc nnc ec ev ed cia bc ba lim = .ok out) :
    ∃ conds sorted,
      buildConditions t (columns0.getD t.cols) alc av nc nnc ec ev ed cia bc ba
        = .ok conds ∧
      orderRows t obc oba
        (t.rows.filter (fun r => decide (∀ c ∈ conds, evalCond r c = true)))
        = .ok sorted ∧
      out = project (columns0.getD t.cols) (takeLimit lim sorted) := by
  obtain ⟨conds, sorted, h1, h2, h3⟩ :=
    read_table_ok_decomp t columns0 obc oba alc av nc nnc ec ev ed cia bc ba lim out h
  refine ⟨conds, sorted, h1, ?_, h3⟩
  have hfil : (fun r => conds.all (fun c => evalCond r c)) =
      (fun r => decide (∀ c ∈ conds, evalCond r c = true)) := by
    funext r
    exact all_eq_decide conds r
  rw [← hfil]
  exact h2

/-- Concrete table used by several witnesses: two columns, three rows. -/
def tblW : Tbl :=
  ⟨["a", "b"],
   [[("a", some 1), ("b", some 5)],
    [("a", some 2), ("b", none)],
    [("a", some 3), ("b", some 7)]]⟩

/-- Witness for C1: a concrete call with a non-null directive, decomposed by
the claim theorem into its conjunctive filter pipeline. -/
theorem C1_witness :
    ∃ conds sorted,
      buildConditions tblW tblW.cols none none none (some ["zzz"]) none none
        none none none none = .ok conds ∧
      orderRows tblW none true
        (tblW.rows.filter (fun r => decide (∀ c ∈ conds, evalCond r c = true)))
        = .ok sorted ∧
      [[("a", some 1), ("b", some 5)], [("a", some 3), ("b", some 7)]]
        = project tblW.cols (takeLimit default_limit sorted) :=
  C1_and_composition_then_order_then_limit tblW none none true none none none
    (some ["zzz"]) none none none none none none default_limit
    [[("a", some 1), ("b", some 5)], [("a", some 3), ("b", some 7)]] (by decide)

/-- Single-column table with one row whose `c` value is `-1`. -/
def tblC2 : Tbl := ⟨["c"], [[("c", some (-1))]]⟩

/-- C2 counterexample: with `between_arr = [0, 5]` both bounds are present
(neither is `None`), yet the emitted condition is `c <= 5` alone — not the
inclusive range — because `0` is falsy in Python; consequently a row with
`c = -1`, which violates the claimed lower bound `0 <= c`, is returned. -/
theorem C2_counterexample :
    betweenStep tblC2 (some "c") (some [some 0, some 5])
      = .ok [Cond.le "c" (some 5)] ∧
    Cond.le "c" (some 5) ≠ Cond.between "c" (some 0) (some 5) ∧
    read_table tblC2 none none true none none none none none none none none
      (some "c") (some [some 0, some 5]) default_limit
      = .ok [[("c", some (-1))]] ∧
    cmpLe (some 0) (some (-1)) = false := by decide

/-- C2 (amended): for a between directive `(between_col, [s, e])` with a
truthy column name and both entries, if both bounds are truthy (non-null and
non-zero) the emitted condition is the inclusive range `s <= column <= e`;
if only the start bound is truthy it is `column >= s`; if only the end bound
is truthy it is `column <= e`. -/
theorem C2_between_truthy_cases (t : Tbl) (bcol : String) (s e : Value)
    (r : Row) (hbc : bcol ≠ "") (hcol : t.hasCol bcol = true) :
    (s.truthy = true → e.truthy = true →
      betweenStep t (some bcol) (some [s, e]) = .ok [Cond.between bcol s e] ∧
      evalCond r (Cond.between bcol s e)
        = (cmpLe s (lookupCol r bcol) && cmpLe (lookupCol r bcol) e)) ∧
    (s.truthy = true → e.truthy = false →
      betweenStep t (some bcol) (some [s, e]) = .ok [Cond.ge bcol s] ∧
      evalCond r (Cond.ge bcol s) = cmpLe s (lookupCol r bcol)) ∧
    (s.truthy = false → e.truthy = true →
      betweenStep t (some bcol) (some [s, e]) = .ok [Cond.le bcol e] ∧
      evalCond r (Cond.le bcol e) = cmpLe (lookupCol r bcol) e) := by
  refine ⟨fun hs he => ?_, fun hs he => ?_, fun hs he => ?_⟩ <;>
    exact ⟨by simp [betweenStep, hbc, hs, he, getCol, hcol], rfl⟩

/-- Witness for C2's amended theorem: both bounds truthy on a concrete table
gives the inclusive-range condition. -/
theorem C2_witness :
    betweenStep tblW (some "a") (some [some 1, some 3])
      = .ok [Cond.between "a" (some 1) (some 3)] ∧
    evalCond [("a", some 2)] (Cond.between "a" (some 1) (some 3))
      = (cmpLe (some 1) (lookupCol [("a", some 2)] "a")
          && cmpLe (lookupCol [("a", some 2)] "a") (some 3)) :=
  (C2_between_truthy_cases tblW "a" (some 1) (some 3) [("a", some 2)]
      (by decide) (by decide)).1 (by decide) (by decide)

/-- Shape of the collected condition list of a successful composition: the
seven directive blocks contribute in statement order. -/
theorem buildConditions_shape (t : Tbl) (columns : List String)
    (alc : Option String) (av : Value) (nc nnc : Option (List String))
    (ec : Option String) (ev : Value) (ed : Option (List (String × Value)))
    (cia : Option (String × List Value)) (bc : Option String)
    (ba : Option (List Value)) (conds : List Cond)
    (h : buildConditions t columns alc av nc nnc ec ev ed cia bc ba = .ok conds) :
    ∃ cb beq cd ci,
      betweenStep t bc ba = .ok cb ∧ equalsStep t ec ev = .ok beq ∧
      dctStep t ed beq = .ok cd ∧ inArrStep t cia = .ok ci ∧
      conds = cb ++ afterStep t alc av ++ nullStep columns nc
        ++ nonNullStep columns nnc ++ beq.getD [] ++ cd ++ ci := by
  simp only [buildConditions] at h
  split at h
  · exact absurd h (by simp)
  · rename_i cb hcb
    split at h
    · exact absurd h (by simp)
    · rename_i beq hbeq
      split at h
      · exact absurd h (by simp)
      · rename_i cd hcd
        split at h
        · exact absurd h (by simp)
        · rename_i ci hci
          refine ⟨cb, beq, cd, ci, hcb, hbeq, hcd, hci, ?_⟩
          have hc := (Except.ok.injEq _ _).mp h
          subst hc
          simp [List.append_assoc]

/-- C3: the null-columns and non-null-columns directives emit their IS NULL /
IS NOT NULL conditions for the selected projection columns: the composed
conditions do not depend on the names given in the directives, the emitted
blocks are exactly the projection columns' conditions, and on success every
projection column's IS NULL and IS NOT NULL condition is collected. -/
theorem C3_null_filters_use_projection_columns (t : Tbl) (columns : List String)
    (alc : Option String) (av : Value) (ncs1 ncs2 nncs1 nncs2 : List String)
    (ec : Option String) (ev : Value) (ed : Option (List (String × Value)))
    (cia : Option (String × List Value)) (bc : Option String)
    (ba : Option (List Value)) :
    buildConditions t columns alc av (some ncs1) (some nncs1) ec ev ed cia bc ba
      = buildConditions t columns alc av (some ncs2) (some nncs2) ec ev ed cia bc ba ∧
    nullStep columns (some ncs1) = columns.map Cond.isNull ∧
    nonNullStep columns (some nncs1) = columns.map Cond.isNotNull ∧
    (∀ conds,
      buildConditions t columns alc av (some ncs1) (some nncs1) ec ev ed cia bc ba
        = .ok conds →
      ∀ c ∈ columns, Cond.isNull c ∈ conds ∧ Cond.isNotNull c ∈ conds) := by
  refine ⟨rfl, rfl, rfl, ?_⟩
  intro conds hconds c hc
  obtain ⟨cb, beq, cd, ci, _, _, _, _, hshape⟩ :=
    buildConditions_shape t columns alc av (some ncs1) (some nncs1) ec ev ed cia
      bc ba conds hconds
  subst hshape
  have h1 : Cond.isNull c ∈ nullStep columns (some ncs1) :=
    List.mem_map_of_mem Cond.isNull hc
  have h2 : Cond.isNotNull c ∈ nonNullStep columns (some nncs1) :=
    List.mem_map_of_mem Cond.isNotNull hc
  constructor
  · simp only [List.mem_append]
    tauto
  · simp only [List.mem_append]
    tauto

/-- Witness for C3: 4 projection columns being `tblW.cols`, the null/non-null
conditions of a concrete call are those of the projection columns even though
the directive names a different column. -/
theorem C3_witness :
    buildConditions tblW tblW.cols none none (some ["zzz"]) (some ["yyy"])
        none none none none none none
      = buildConditions tblW tblW.cols none none (some ["b"]) (some ["a"])
        none none none none none none ∧
    nullStep tblW.cols (some ["zzz"]) = tblW.cols.map Cond.isNull ∧
    nonNullStep tblW.cols (some ["yyy"]) = tblW.cols.map Cond.isNotNull ∧
    (Cond.isNull "a" ∈ [Cond.isNull "a", Cond.isNull "b", Cond.isNotNull "a",
        Cond.isNotNull "b"] ∧
      Cond.isNotNull "a" ∈ [Cond.isNull "a", Cond.isNull "b", Cond.isNotNull "a",
        Cond.isNotNull "b"]) := by
  obtain ⟨w1, w2, w3, w4⟩ := C3_null_filters_use_projection_columns tblW tblW.cols
    none none ["zzz"] ["b"] ["yyy"] ["a"] none none none none none none
  exact ⟨w1, w2, w3, w4 [Cond.isNull "a", Cond.isNull "b", Cond.isNotNull "a",
    Cond.isNotNull "b"] (by decide) "a" (by decide)⟩

/-- The equals-map loop keeps only the condition of the last entry: every
earlier entry's assignment to `conditions_equals` is overwritten. -/
theorem dctLoop_last (t : Tbl) (entries : List (String × Value)) (c : String)
    (v : Value) (hall : ∀ p ∈ entries, t.hasCol p.1 = true) :
    ∀ binding, entries.getLast? = some (c, v) →
      dctLoop t entries binding = .ok (some [sqlEq c v]) := by
  induction entries with
  | nil => intro binding hlast; simp at hlast
  | cons p rest ih =>
      intro binding hlast
      obtain ⟨pc, pv⟩ := p
      have hpc : t.hasCol pc = true := hall (pc, pv) (by simp)
      simp only [dctLoop, getCol, hpc, if_true]
      cases rest with
      | nil =>
          simp only [List.getLast?_singleton, Option.some.injEq, Prod.mk.injEq] at hlast
          obtain ⟨rfl, rfl⟩ := hlast
          simp [dctLoop]
      | cons q qs =>
          have hall2 : ∀ p ∈ q :: qs, t.hasCol p.1 = true :=
            fun p hp => hall p (List.mem_cons_of_mem _ hp)
          have hlast2 : (q :: qs).getLast? = some (c, v) := by
            rwa [List.getLast?_cons_cons] at hlast
          exact ih hall2 (some [sqlEq pc pv]) hlast2

/-- C4: for a non-empty equals-map directive over existing columns, the block
contributes exactly one equality condition — the last entry's — regardless
of any earlier binding of `conditions_equals`, and the composed condition
list contains that single condition from the equals-map block. -/
theorem C4_equals_dct_last_entry_only (t : Tbl) (entries : List (String × Value))
    (binding : Option (List Cond)) (c : String) (v : Value)
    (hlast : entries.getLast? = some (c, v))
    (hall : ∀ p ∈ entries, t.hasCol p.1 = true) :
    dctStep t (some entries) binding = .ok [sqlEq c v] ∧
    (∀ columns alc av nc nnc ec ev cia bc ba conds,
      buildConditions t columns alc av nc nnc ec ev (some entries) cia bc ba
        = .ok conds →
      ∃ pre post, conds = pre ++ [sqlEq c v] ++ post) := by
  have hstep : dctStep t (some entries) binding = .ok [sqlEq c v] := by
    simp only [dctStep, dctLoop_last t entries c v hall binding hlast]
  refine ⟨hstep, ?_⟩
  intro columns alc av nc nnc ec ev cia bc ba conds hconds
  obtain ⟨cb, beq, cd, ci, _, _, hcd, _, hshape⟩ :=
    buildConditions_shape t columns alc av nc nnc ec ev (some entries) cia bc ba
      conds hconds
  have hcd2 : dctStep t (some entries) beq = .ok [sqlEq c v] := by
    simp only [dctStep, dctLoop_last t entries c v hall beq hlast]
  rw [hcd] at hcd2
  have hcdv : cd = [sqlEq c v] := (Except.ok.injEq _ _).mp hcd2
  subst hcdv
  subst hshape
  exact ⟨cb ++ afterStep t alc av ++ nullStep columns nc
    ++ nonNullStep columns nnc ++ beq.getD [], ci, by simp [List.append_assoc]⟩

/-- Witness for C4: a two-entry map contributes only the second entry's
condition. -/
theorem C4_witness :
    dctStep tblW (some [("a", some 1), ("b", some 2)]) none
      = .ok [sqlEq "b" (some 2)] ∧
    (∀ columns alc av nc nnc ec ev cia bc ba conds,
      buildConditions tblW columns alc av nc nnc ec ev
          (some [("a", some 1), ("b", some 2)]) cia bc ba = .ok conds →
      ∃ pre post, conds = pre ++ [sqlEq "b" (some 2)] ++ post) :=
  C4_equals_dct_last_entry_only tblW [("a", some 1), ("b", some 2)] none "b"
    (some 2) (by decide) (by decide)

/-- C5: the after-cursor directive.  When the named column exists, the
condition `column > after_val` is collected and every returned row is the
projection of a stored row satisfying it.  When the column does not exist,
the `try/except` silently drops the directive: the call behaves exactly as
the same call without the directive, so it does not fail because of it. -/
theorem C5_after_cursor_added_or_dropped (t : Tbl) (columns0 : Option (List String))
    (obc : Option String) (oba : Bool) (av : Value)
    (nc nnc : Option (List String)) (ec : Option String) (ev : Value)
    (ed : Option (List (String × Value))) (cia : Option (String × List Value))
    (bc : Option String) (ba : Option (List Value)) (lim : Option Nat)
    (c : String) :
    (t.hasCol c = true →
      ∀ out row,
        read_table t columns0 obc oba (some c) av nc nnc ec ev ed cia bc ba lim
          = .ok out →
        row ∈ out →
        ∃ r ∈ t.rows, evalCond r (Cond.gt c av) = true ∧
          row = (columns0.getD t.cols).map (fun cn => (cn, lookupCol r cn))) ∧
    (t.hasCol c = false →
      read_table t columns0 obc oba (some c) av nc nnc ec ev ed cia bc ba lim =
      read_table t columns0 obc oba none av nc nnc ec ev ed cia bc ba lim) := by
  constructor
  · intro hcol out row h hrow
    obtain ⟨conds, r, hbuild, hr, hallc, hdef⟩ :=
      mem_read_table t columns0 obc oba (some c) av nc nnc ec ev ed cia bc ba lim
        out row h hrow
    obtain ⟨cb, beq, cd, ci, _, _, _, _, hshape⟩ :=
      buildConditions_shape t (columns0.getD t.cols) (some c) av nc nnc ec ev ed
        cia bc ba conds hbuild
    have hmem : Cond.gt c av ∈ conds := by
      subst hshape
      have : Cond.gt c av ∈ afterStep t (some c) av := by
        simp [afterStep, hcol]
      simp only [List.mem_append]
      tauto
    exact ⟨r, hr, hallc _ hmem, hdef⟩
  · intro hcol
    have habc : afterStep t (some c) av = afterStep t none av := by
      simp [afterStep, hcol]
    simp only [read_table, buildConditions, habc]

/-- Witness for C5: existing cursor column `a` with value 1 — the returned
row's source satisfies `a > 1` — and missing cursor column `zzz` — the call
equals the cursor-free call. -/
theorem C5_witness :
    (∃ r ∈ tblW.rows, evalCond r (Cond.gt "a" (some 1)) = true ∧
      [("a", some 2), ("b", (none : Value))]
        = tblW.cols.map (fun cn => (cn, lookupCol r cn))) ∧
    read_table tblW none none true (some "zzz") (some 1) none none none none
        none none none none default_limit =
      read_table tblW none none true none (some 1) none none none none
        none none none none default_limit :=
  ⟨(C5_after_cursor_added_or_dropped tblW none none true (some 1) none none
        none none none none none none default_limit "a").1 (by decide)
      [[("a", some 2), ("b", none)], [("a", some 3), ("b", some 7)]]
      [("a", some 2), ("b", none)] (by decide) (by decide),
    (C5_after_cursor_added_or_dropped tblW none none true (some 1) none none
        none none none none none none default_limit "zzz").2 (by decide)⟩

/-- A successful ORDER BY step preserves the number of rows. -/
theorem orderRows_length {t : Tbl} {obc : Option String} {oba : Bool}
    {rows sorted : List Row} (h : orderRows t obc oba rows = .ok sorted) :
    sorted.length = rows.length := by
  cases obc with
  | none =>
      simp only [orderRows] at h
      cases h
      rfl
  | some oc =>
      simp only [orderRows] at h
      split at h
      · cases h
        exact List.length_mergeSort rows
      · exact absurd h (by simp)

/-- C6: a successful `read_table` result respects the cap — at most `l` rows
when `limit = some l` — every returned row carries exactly the requested
columns in the requested order (the table's columns in table order when
`columns` is unspecified), the signature's default limit is 10000, and
`limit = None` disables the cap entirely: the output has exactly as many
rows as survive the filter. -/
theorem C6_limit_and_projection (t : Tbl) (columns0 : Option (List String))
    (obc : Option String) (oba : Bool) (alc : Option String) (av : Value)
    (nc nnc : Option (List String)) (ec : Option String) (ev : Value)
    (ed : Option (List (String × Value))) (cia : Option (String × List Value))
    (bc : Option String) (ba : Option (List Value)) (lim : Option Nat)
    (out : List Row)
    (h : read_table t columns0 obc oba alc av nc nnc ec ev ed cia bc ba lim = .ok out) :
    default_limit = some 10000 ∧
    (∀ l, lim = some l → out.length ≤ l) ∧
    (∀ row ∈ out, row.map Prod.fst = columns0.getD t.cols) ∧
    (columns0 = none → ∀ row ∈ out, row.map Prod.fst = t.cols) ∧
    (lim = none →
      ∃ conds,
        buildConditions t (columns0.getD t.cols) alc av nc nnc ec ev ed cia bc ba
          = .ok conds ∧
        out.length
          = (t.rows.filter (fun r => conds.all (fun c => evalCond r c))).length) := by
  obtain ⟨conds, sorted, h1, h2, h3⟩ :=
    read_table_ok_decomp t columns0 obc oba alc av nc nnc ec ev ed cia bc ba lim
      out h
  have hcols : ∀ row ∈ out, row.map Prod.fst = columns0.getD t.cols := by
    intro row hrow
    rw [h3] at hrow
    simp only [project, List.mem_map] at hrow
    obtain ⟨r, _, hrdef⟩ := hrow
    rw [← hrdef, List.map_map]
    have hid : (Prod.fst ∘ fun c => (c, lookupCol r c)) = id := rfl
    rw [hid, List.map_id]
  refine ⟨rfl, ?_, hcols, ?_, ?_⟩
  · intro l hl
    subst hl
    rw [h3]
    simp only [project, takeLimit, List.length_map]
    exact List.length_take_le l sorted
  · intro hc0 row hrow
    have := hcols row hrow
    rwa [hc0] at this
  · intro hl
    subst hl
    refine ⟨conds, h1, ?_⟩
    rw [h3]
    simp only [project, takeLimit, List.length_map]
    exact orderRows_length h2

/-- Witness for C6: a concrete call with `limit = some 1` returns one row
with exactly the default projection columns, and the no-limit variant keeps
both surviving rows. -/
theorem C6_witness :
    default_limit = some 10000 ∧
    (∀ l, (some 1 : Option Nat) = some l → ([[("a", some 1), ("b", some 5)]] : List Row).length ≤ l) ∧
    (∀ row ∈ ([[("a", some 1), ("b", some 5)]] : List Row), row.map Prod.fst = tblW.cols) ∧
    ((none : Option (List String)) = none →
      ∀ row ∈ ([[("a", some 1), ("b", some 5)]] : List Row), row.map Prod.fst = tblW.cols) ∧
    ((some 1 : Option Nat) = none →
      ∃ conds,
        buildConditions tblW tblW.cols none none none (some ["q"]) none none
          none none none none = .ok conds ∧
        ([[("a", some 1), ("b", some 5)]] : List Row).length
          = (tblW.rows.filter (fun r => conds.all (fun c => evalCond r c))).length) :=
  C6_limit_and_projection tblW none none true none none none (some ["q"]) none
    none none none none none (some 1) [[("a", some 1), ("b", some 5)]] (by decide)

/-- C7: the serialization helpers replace exactly the non-JSON-representable
values by their string representation, keep every representable value
unchanged, preserve keys and record length (the whole record never fails to
serialize), and `jsonify_records` applies the same per-field rule to every
record. -/
theorem C7_jsonify_replaces_unserializable_only (d : List (String × PyVal))
    (records : List (List (String × PyVal))) :
    (jsonify_dict d).map Prod.fst = d.map Prod.fst ∧
    (jsonify_dict d).length = d.length ∧
    (∀ kv ∈ d, kv.2.jsonable = true → (kv.1, kv.2) ∈ jsonify_dict d) ∧
    (∀ kv ∈ d, kv.2.jsonable = false →
      (kv.1, PyVal.vstr (pyStr kv.2)) ∈ jsonify_dict d) ∧
    jsonify_records records = records.map jsonify_dict := by
  refine ⟨?_, ?_, ?_, ?_, rfl⟩
  · rw [jsonify_dict, List.map_map]
    rfl
  · simp [jsonify_dict]
  · intro kv hkv hj
    have hm := List.mem_map_of_mem
      (fun kv : String × PyVal =>
        (kv.1, if kv.2.jsonable then kv.2 else PyVal.vstr (pyStr kv.2))) hkv
    simpa [jsonify_dict, hj] using hm
  · intro kv hkv hj
    have hm := List.mem_map_of_mem
      (fun kv : String × PyVal =>
        (kv.1, if kv.2.jsonable then kv.2 else PyVal.vstr (pyStr kv.2))) hkv
    simpa [jsonify_dict, hj] using hm

/-- Witness for C7: a record with a serializable id and a non-serializable
blob keeps the id and turns the blob into its string form. -/
theorem C7_witness :
    (jsonify_dict [("id", PyVal.vint 1), ("blob", PyVal.obj "<binary>")]).map Prod.fst
      = [("id", PyVal.vint 1), ("blob", PyVal.obj "<binary>")].map Prod.fst ∧
    ("id", PyVal.vint 1)
      ∈ jsonify_dict [("id", PyVal.vint 1), ("blob", PyVal.obj "<binary>")] ∧
    ("blob", PyVal.vstr "<binary>")
      ∈ jsonify_dict [("id", PyVal.vint 1), ("blob", PyVal.obj "<binary>")] := by
  obtain ⟨w1, _, w3, w4, _⟩ := C7_jsonify_replaces_unserializable_only
    [("id", PyVal.vint 1), ("blob", PyVal.obj "<binary>")] []
  exact ⟨w1, w3 ("id", PyVal.vint 1) (by decide) (by decide),
    w4 ("blob", PyVal.obj "<binary>") (by decide) (by decide)⟩

/-- C8 (code evaluation): because `tab` is never imported by
src/sqlalchemy.py, the progress print of the very first batch raises
NameError before any UPDATE is executed, for every non-empty input and every
non-zero batch size: the call fails and the table keeps its initial rows, so
no row of the input is ever processed. -/
theorem C8_batch_update_always_namerror (t : Tbl) (arr_rows : List Row)
    (cm : String) (bs : Nat) (hbs : bs ≠ 0) (harr : arr_rows ≠ []) :
    batch_update_table t arr_rows cm bs = (.error (.nameError "tab"), t.rows) := by
  rw [batch_update_table, if_neg hbs]
  rw [chunks]
  rw [if_neg (by simp [harr, hbs])]
  simp [batchLoop, progressPrint]

/-- Witness for C8: one update row, batch size 1000. -/
theorem C8_witness :
    batch_update_table tblW
        [[("id", some 1), ("fee_price", some 2), ("fee_value", some 3)]] "id" 1000
      = (.error (.nameError "tab"), tblW.rows) :=
  C8_batch_update_always_namerror tblW
    [[("id", some 1), ("fee_price", some 2), ("fee_value", some 3)]] "id" 1000
    (by decide) (by decide)

/-- The ORDER BY value order is reflexive. -/
theorem cmpLeNulls_refl (v : Value) : cmpLeNulls v v = true := by
  cases v <;> simp [cmpLeNulls]

/-- The ORDER BY value order is transitive. -/
theorem cmpLeNulls_trans (a b c : Value) (h1 : cmpLeNulls a b = true)
    (h2 : cmpLeNulls b c = true) : cmpLeNulls a c = true := by
  cases a <;> cases b <;> cases c <;> simp [cmpLeNulls] at * <;> omega

/-- The ORDER BY value order is total. -/
theorem cmpLeNulls_total (a b : Value) :
    (cmpLeNulls a b || cmpLeNulls b a) = true := by
  cases a <;> cases b <;> simp [cmpLeNulls] <;> omega

/-- The row comparison of `sortRows` is transitive. -/
theorem keyLe_trans (asc : Bool) (c : String) :
    ∀ r1 r2 r3 : Row, keyLe asc c r1 r2 = true → keyLe asc c r2 r3 = true →
      keyLe asc c r1 r3 = true := by
  intro r1 r2 r3 h1 h2
  cases asc <;> simp only [keyLe, if_true, if_false, Bool.false_eq_true,
    Bool.true_eq_false, ite_true, ite_false] at h1 h2 ⊢
  · exact cmpLeNulls_trans _ _ _ h2 h1
  · exact cmpLeNulls_trans _ _ _ h1 h2

/-- The row comparison of `sortRows` is total. -/
theorem keyLe_total (asc : Bool) (c : String) :
    ∀ r1 r2 : Row, (keyLe asc c r1 r2 || keyLe asc c r2 r1) = true := by
  intro r1 r2
  cases asc <;> simp only [keyLe, if_true, if_false, Bool.false_eq_true,
    Bool.true_eq_false, ite_true, ite_false]
  · exact cmpLeNulls_total _ _
  · exact cmpLeNulls_total _ _

/-- C9: `get_first_row_after` returns exactly what `get_last_row` returns —
both ignore their `col` / `value` / `ascending` parameters — and a
successful result is the projection of a stored row whose `id` is greatest
(ORDER BY id DESC, NULLS FIRST, LIMIT 1). -/
theorem C9_get_first_row_after_equals_get_last_row (t : Tbl) (col1 : String)
    (value : Value) (col2 : String) (asc : Bool) :
    get_first_row_after t col1 value = get_last_row t col2 asc ∧
    ∀ row, get_last_row t col2 asc = .ok row →
      ∃ r ∈ t.rows, row = t.cols.map (fun c => (c, lookupCol r c)) ∧
        ∀ r2 ∈ t.rows, cmpLeNulls (lookupCol r2 "id") (lookupCol r "id") = true := by
  refine ⟨rfl, ?_⟩
  intro row hrow
  simp only [get_last_row] at hrow
  split at hrow
  · split at hrow
    · exact absurd hrow (by simp)
    · rename_i r rest hsort
      have hperm : (r :: rest).Perm t.rows := by
        rw [← hsort]
        exact List.mergeSort_perm t.rows (keyLe false "id")
      have hpair : List.Pairwise (fun a b => keyLe false "id" a b = true) (r :: rest) := by
        rw [← hsort]
        exact List.sorted_mergeSort (keyLe_trans false "id") (keyLe_total false "id")
          t.rows
      have hroweq : row = t.cols.map (fun c => (c, lookupCol r c)) :=
        ((Except.ok.injEq _ _).mp hrow).symm
      refine ⟨r, hperm.mem_iff.mp (by simp), hroweq, ?_⟩
      intro r2 hr2
      rcases List.mem_cons.mp (hperm.mem_iff.mpr hr2) with heq | hmem
      · subst heq
        exact cmpLeNulls_refl _
      · have hk := (List.pairwise_cons.mp hpair).1 r2 hmem
        simpa [keyLe] using hk
  · exact absurd hrow (by simp)

/-- One-row table used by the C9 witness. -/
def tblC9 : Tbl := ⟨["id"], [[("id", some 4)]]⟩

/-- Witness for C9: on a one-row table the returned row is the projection of
the stored row, and its id is maximal. -/
theorem C9_witness :
    ∃ r ∈ tblC9.rows,
      ([("id", (some 4 : Value))] : Row) = tblC9.cols.map (fun c => (c, lookupCol r c)) ∧
      ∀ r2 ∈ tblC9.rows, cmpLeNulls (lookupCol r2 "id") (lookupCol r "id") = true :=
  (C9_get_first_row_after_equals_get_last_row tblC9 "x" none "y" false).2
    [("id", some 4)] (by
      simp [get_last_row, Tbl.hasCol, lookupCol, tblC9, List.mergeSort_singleton])

/-- C10: a between directive with a truthy column, a length-2 array and two
falsy entries makes the whole call raise UnboundLocalError — the directive is
not ignored and no rows are returned. -/
theorem C10_between_two_falsy_bounds_raises (t : Tbl)
    (columns0 : Option (List String)) (obc : Option String) (oba : Bool)
    (alc : Option String) (av : Value) (nc nnc : Option (List String))
    (ec : Option String) (ev : Value) (ed : Option (List (String × Value)))
    (cia : Option (String × List Value)) (bcol : String) (s e : Value)
    (lim : Option Nat) (hbc : bcol ≠ "") (hs : s.truthy = false)
    (he : e.truthy = false)
    (hcols : checkCols t (columns0.getD t.cols) = .ok ()) :
    read_table t columns0 obc oba alc av nc nnc ec ev ed cia (some bcol)
      (some [s, e]) lim = .error (.unboundLocal "conditions_between") := by
  have hb : betweenStep t (some bcol) (some [s, e])
      = .error (.unboundLocal "conditions_between") := by
    simp [betweenStep, hbc, hs, he]
  simp only [read_table, hcols, buildConditions, hb]

/-- Witness for C10: `between_arr = [None, 0]` — both entries falsy — raises. -/
theorem C10_witness :
    read_table tblW none none true none none none none none none none none
      (some "a") (some [none, some 0]) default_limit
      = .error (.unboundLocal "conditions_between") :=
  C10_between_two_falsy_bounds_raises tblW none none true none none none none
    none none none none "a" none (some 0) default_limit (by decide) (by decide)
    (by decide) (by decide)

end Sqla
